import Mathlib

/-!
Scope commands of connect-cli (`lib/commands/scope.js`).

A shallow embedding of `registerScope`: the error handler `apiError`, the
formatter `displayField` / `displayScope`, and the five task handlers
(`register`, `list`, `info`, `update`, `delete`).

* JavaScript values are the inductive `JsVal`; numbers are integers (status
  codes and epoch timestamps), objects other than arrays and dates do not occur
  as field values.
* Every collaborator the file only calls (`cli.issuers.prompt`,
  `cli.client.create`, the `anvil` client, `cli.prompt`, `chalk`, `cli-table`,
  `Date`) is a field of `Cli` / `Anvil`: a run is a function of their answers.
* A run is the list of observable `Event`s in program order: every call to a
  collaborator, every line logged, `done()` and `process.exit`.  A promise is a
  `Run α`: the events so far and either the value or the rejection.
-/

/-! ## JavaScript values -/

/-- A JavaScript value as it can appear in a flag, a resource field or an answer. -/
inductive JsVal where
  | undefined
  | null
  | bool (b : Bool)
  | num (n : Int)
  | str (s : String)
  | arr (items : List JsVal)
  | date (shown : String)

namespace JsVal

/-- ToBoolean: `undefined`, `null`, `false`, `0` and `""` are falsy; every
object (arrays, also the empty one, and dates) is truthy. -/
def truthy : JsVal → Bool
  | undefined => false
  | null => false
  | bool b => b
  | num n => n != 0
  | str s => s != ""
  | arr _ => true
  | date _ => true

/-- The test `typeof v === 'undefined'`. -/
def isUndefined : JsVal → Bool
  | undefined => true
  | _ => false

/-- The function `Array.isArray(v)`. -/
def isArray : JsVal → Bool
  | arr _ => true
  | _ => false

/-- The property `v.length` of an array (of a string: its code units are not
needed here, the property is only read on arrays). -/
def length : JsVal → Nat
  | arr items => items.length
  | _ => 0

/-- The operator `a || b`. -/
def or (a b : JsVal) : JsVal := if a.truthy then a else b

/-- The operator `a && b`. -/
def and (a b : JsVal) : JsVal := if a.truthy then b else a

/-- The operator `a === b`.  Primitives compare by value.  Objects compare by
reference, which a value does not carry: every comparison in this program has a
primitive on one side whenever it is evaluated, and an object is never equal to
a primitive. -/
def strictEq : JsVal → JsVal → Bool
  | undefined, undefined => true
  | null, null => true
  | bool a, bool b => a == b
  | num a, num b => a == b
  | str a, str b => a == b
  | _, _ => false

/-- The method `xs.indexOf(v)`: the first index whose element is `=== v`, else `-1`. -/
def indexOf : List JsVal → JsVal → Int
  | [], _ => -1
  | x :: xs, v =>
    if x.strictEq v then 0
    else if indexOf xs v = -1 then -1 else indexOf xs v + 1

mutual
/-- ToString, as used by `+` on a string and by `join`.  A number is printed in
decimal, which is what JavaScript prints for an integer below `10^21` in size. -/
def toStr : JsVal → String
  | undefined => "undefined"
  | null => "null"
  | bool b => if b then "true" else "false"
  | num n => toString n
  | str s => s
  | arr items => join "," items
  | date shown => shown
termination_by structural v => v
/-- The method `items.join(sep)`: `undefined` and `null` elements give the empty string. -/
def join (sep : String) : List JsVal → String
  | [] => ""
  | x :: rest =>
    (match x with
      | undefined => ""
      | null => ""
      | v => toStr v) ++
    (match rest with
      | [] => ""
      | _ => sep ++ join sep rest)
termination_by structural l => l
end

end JsVal

/-- The number of UTF-16 code units of one character. -/
def utf16Units (c : Char) : Nat := if c.val < 0x10000 then 1 else 2

/-- The property `s.length` of a JavaScript string: its UTF-16 code units. -/
def jsLength (s : String) : Nat := (s.data.map utf16Units).sum

/-! ## Data model -/

/-- An error object, by the two properties that matter here. -/
structure ErrorObject where
  statusCode : JsVal
  message : String

/-- An error value: what a rejected promise or a thrown exception carries.  It is
an error object as a rule, but a promise can be rejected with any value. -/
inductive JsError where
  | object (e : ErrorObject)
  | value (v : JsVal)

/-- The expression `new Error(message)`: an error object without `statusCode`. -/
def JsError.new (message : String) : JsError := .object ⟨.undefined, message⟩

/-- The property access `err.statusCode`: `none` when the access itself throws a
TypeError, which it does on `undefined` and on `null`; any other value that is
not an error object has no such property. -/
def JsError.statusCode : JsError → Option JsVal
  | .object e => some e.statusCode
  | .value .undefined => none
  | .value .null => none
  | .value _ => some .undefined

/-- A scope resource, by the five fields the commands read. -/
structure Scope where
  name : JsVal
  description : JsVal
  restricted : JsVal
  created : JsVal
  modified : JsVal

/-- The answers object `cli.prompt` hands to its callback. -/
abbrev Answers := List (String × JsVal)

/-- Property access `answers.key`; `undefined` when absent. -/
def Answers.prop (a : Answers) (key : String) : JsVal := (a.lookup key).getD .undefined

/-- One entry of a `choices` array. -/
structure Choice where
  name : JsVal
  value : JsVal

/-- A question specification passed to `cli.prompt`. -/
structure Question where
  type : String
  name : String
  message : String
  value : JsVal := .undefined
  default : JsVal := .undefined
  trim : JsVal := .undefined
  choices : List Choice := []

/-- The parsed flags of a command line, by the keys the handlers read. -/
structure Flags where
  issuer : JsVal := .undefined
  i : JsVal := .undefined
  name : JsVal := .undefined
  n : JsVal := .undefined
  description : JsVal := .undefined
  d : JsVal := .undefined
  restricted : JsVal := .undefined
  r : JsVal := .undefined

/-- The issuer configuration chosen by `cli.issuers.prompt`. -/
abbrev Issuer := String

/-- What `cli.log.error` is called with. -/
inductive Logged where
  | text (s : String)
  | error (e : JsError)

/-- The observable steps of a run, in program order.  `typeError` is a TypeError
thrown where nothing catches it: the step after which the code does nothing more. -/
inductive Event where
  | issuersPrompt (id : JsVal)
  | clientCreate (issuer : Issuer)
  | discover
  | scopesCreate (answers : Answers) (token : JsVal)
  | scopesList (token : JsVal)
  | scopesGet (name : JsVal) (token : JsVal)
  | scopesUpdate (name : JsVal) (update : Answers) (token : JsVal)
  | scopesDelete (name : JsVal) (token : JsVal)
  | prompt (questions : List Question)
  | log (args : List String)
  | logError (what : Logged)
  | consoleLog (err : JsError)
  | typeError
  | done
  | exit (code : Nat)

/-- The client handle `anvil` built by `cli.client.create(issuer)`: its token and
the outcome of each remote call. -/
structure Anvil where
  access_token : JsVal
  discover : Except JsError JsVal
  create : Answers → JsVal → Except JsError Scope
  list : JsVal → Except JsError (List Scope)
  get : JsVal → JsVal → Except JsError Scope
  update : JsVal → Answers → JsVal → Except JsError Scope
  delete : JsVal → JsVal → Except JsError JsVal

/-- The collaborators reached through `cli` and the required modules.  An
`error` of `issuersPrompt` is a callback with a truthy `err`, one of
`clientCreate` a thrown exception, one of `table` an exception thrown by
`table.toString()`. -/
structure Cli where
  issuersPrompt : JsVal → Except JsError Issuer
  clientCreate : Issuer → Except JsError Anvil
  prompt : List Question → Answers
  chalk : String → JsVal → String
  table : List String → List (List JsVal) → Except JsError String
  newDate : JsVal → String

/-! ## Promises -/

/-- A settled promise together with the events its computation produced. -/
structure Run (α : Type) where
  events : List Event
  result : Except JsError α

namespace Run

/-- A promise already resolved with `a`. -/
def resolve (a : α) : Run α := ⟨[], .ok a⟩

/-- A promise already rejected with `e`. -/
def reject (e : JsError) : Run α := ⟨[], .error e⟩

/-- One call to a collaborator: the event, and its outcome. -/
def call (ev : Event) (r : Except JsError α) : Run α := ⟨[ev], r⟩

/-- The method `p.then(f)`: `f` runs only when `p` is fulfilled. -/
def andThen (p : Run α) (f : α → Run β) : Run β :=
  match p.result with
  | .error e => ⟨p.events, .error e⟩
  | .ok a => ⟨p.events ++ (f a).events, (f a).result⟩

/-- The final `p.catch(h)` of a chain: `h` runs only when `p` is rejected. -/
def catchWith (p : Run α) (h : JsError → List Event) : List Event :=
  match p.result with
  | .error e => p.events ++ h e
  | .ok _ => p.events

end Run

/-! ## `apiError`, `displayField`, `displayScope` -/

/-- API Error Response Handler (lines 21-29).  When reading `err.statusCode`
throws, the handler is left at once: nothing is reported and `process.exit` is
not reached. -/
def apiError (err : JsError) : List Event :=
  match err.statusCode with
  | none => [Event.typeError]
  | some statusCode =>
    (if statusCode.truthy && JsVal.indexOf [.num 401, .num 403] statusCode != -1 then
      [Event.logError (.text "Please login to the issuer.")]
    else
      [Event.consoleLog err]) ++
    [Event.exit 1]

/-- The string `tabs` built for a key of the given length (lines 38-41). -/
def tabs (keyLength : Nat) : String :=
  let tabs := "\t"
  let diff : Int := 24 - (keyLength : Int)
  let tabs := if diff > 8 then tabs ++ "\t" else tabs
  let tabs := if diff > 16 then tabs ++ "\t" else tabs
  tabs

/-- The condition of line 36: the value is defined and is not an empty array. -/
def displayed (value : JsVal) : Bool :=
  !value.isUndefined && !(value.isArray && value.length == 0)

/-- The formatted value (lines 44-50). -/
def formatValue (cli : Cli) (value : JsVal) (format : Option String) : String :=
  match value with
  | .arr items =>
    JsVal.join "\n\t\t\t" (items.map fun item =>
      match format with
      | some f => .str (cli.chalk f item)
      | none => item)
  | v =>
    match format with
    | some f => cli.chalk f v
    | none => v.toStr

/-- Display Field (lines 35-54). -/
def displayField (cli : Cli) (key : String) (value : JsVal) (format : Option String) :
    List Event :=
  if displayed value then
    [Event.log [key ++ tabs (jsLength key) ++ formatValue cli value format]]
  else
    []

/-- Display Scope (lines 60-67). -/
def displayScope (cli : Cli) (data : Scope) : List Event :=
  [Event.log []] ++
  displayField cli "Name" data.name (some "bold") ++
  displayField cli "Description" data.description none ++
  displayField cli "Restricted" data.restricted none ++
  displayField cli "Created" (data.created.and (.date (cli.newDate data.created))) none ++
  displayField cli "Modified" (data.modified.and (.date (cli.newDate data.modified))) none

/-! ## The task handlers -/

namespace scopeCmd

/-- The prologue every handler starts with (lines 98-109, and the same lines in
the other four handlers): choose the issuer, build the client; either failure
is logged and ends the process. -/
def withClient (cli : Cli) (flags : Flags) (body : Anvil → List Event) : List Event :=
  let id := flags.issuer.or flags.i
  [Event.issuersPrompt id] ++
  match cli.issuersPrompt id with
  | .error err => [Event.logError (.error err), Event.exit 1]
  | .ok issuer =>
    [Event.clientCreate issuer] ++
    match cli.clientCreate issuer with
    | .error e => [Event.logError (.error e), Event.exit 1]
    | .ok anvil => body anvil

/-- The expression `data[0]`. -/
def arg0 (data : List JsVal) : JsVal := data.head?.getD .undefined

/-- The question of the selection prompt (lines 222-233). -/
def selectQuestions (scopes : List Scope) : List Question :=
  [{ type := "list", name := "scopeName", message := "Select a scope",
     choices := scopes.map fun scope => { name := scope.name, value := scope.name } }]

/-- The resolution promise (lines 216-240 in `info`, 275-299 in `update`,
380-404 in `delete`). -/
def selectScope (cli : Cli) (anvil : Anvil) (data : List JsVal) : Run JsVal :=
  if (arg0 data).truthy then
    Run.resolve (arg0 data)
  else
    (Run.call (.scopesList anvil.access_token) (anvil.list anvil.access_token)).andThen
      fun scopes =>
        ⟨[.prompt (selectQuestions scopes)],
          .ok ((cli.prompt (selectQuestions scopes)).prop "scopeName")⟩

/-- The questions of `register` (lines 113-135). -/
def registerQuestions (flags : Flags) : List Question :=
  [{ type := "input", name := "name", message := "Name",
     value := flags.name.or flags.n, trim := .bool true },
   { type := "input", name := "description", message := "Description",
     value := flags.description.or flags.d, trim := .bool true },
   { type := "confirm", name := "restricted", message := "Restricted",
     value := flags.restricted.or flags.r, trim := .bool true }]

/-- The promise chain of `register`, from `anvil.discover()` on (lines 111-147). -/
def registerChain (cli : Cli) (flags : Flags) (anvil : Anvil) : List Event :=
  ((Run.call .discover anvil.discover).andThen fun _configuration =>
    let answers := cli.prompt (registerQuestions flags)
    (⟨[.prompt (registerQuestions flags)] ++
      ((Run.call (.scopesCreate answers anvil.access_token)
          (anvil.create answers anvil.access_token)).andThen fun registration =>
        (⟨displayScope cli registration ++ [.done], .ok ()⟩ : Run Unit)).catchWith apiError,
      .ok ()⟩ : Run Unit)).catchWith apiError

/-- Scope registration (lines 95-149). -/
def register (cli : Cli) (_data : List JsVal) (flags : Flags) : List Event :=
  withClient cli flags (registerChain cli flags)

/-- The promise chain of `list`, from `anvil.discover()` on (lines 171-190). -/
def listChain (cli : Cli) (anvil : Anvil) : List Event :=
  (((Run.call .discover anvil.discover).andThen fun _configuration =>
    Run.call (.scopesList anvil.access_token) (anvil.list anvil.access_token)).andThen
    fun scopes =>
      match cli.table ["Name", "Description", "Restricted"]
          (scopes.map fun scope =>
            [.str (cli.chalk "bold" scope.name), scope.description, scope.restricted]) with
      | .error e => Run.reject e
      | .ok rendered => (⟨[.log [rendered], .done], .ok ()⟩ : Run Unit)).catchWith apiError

/-- Scope list (lines 155-192). -/
def list (cli : Cli) (_data : List JsVal) (flags : Flags) : List Event :=
  withClient cli flags (listChain cli)

/-- The promise chain of `info`, from `anvil.discover()` on (lines 214-249). -/
def infoChain (cli : Cli) (data : List JsVal) (anvil : Anvil) : List Event :=
  ((((Run.call .discover anvil.discover).andThen fun _configuration =>
    selectScope cli anvil data).andThen fun scopeName =>
    Run.call (.scopesGet scopeName anvil.access_token)
      (anvil.get scopeName anvil.access_token)).andThen fun data =>
    (⟨displayScope cli data ++ [.done], .ok ()⟩ : Run Unit)).catchWith apiError

/-- Scope info (lines 198-251). -/
def info (cli : Cli) (data : List JsVal) (flags : Flags) : List Event :=
  withClient cli flags (infoChain cli data)

/-- The questions of `update` (lines 306-331). -/
def updateQuestions (flags : Flags) (scope : Scope) : List Question :=
  [{ type := "input", name := "name", message := "Name",
     value := flags.name.or flags.n, default := scope.name, trim := .bool true },
   { type := "input", name := "description", message := "Description",
     value := flags.description.or flags.d, default := scope.description, trim := .bool true },
   { type := "confirm", name := "restricted", message := "Restricted",
     value := flags.restricted.or flags.r, default := scope.restricted, trim := .bool true }]

/-- The array `requiredScopes` (line 333, and again in line 408). -/
def requiredScopes : List JsVal :=
  [.str "openid", .str "profile", .str "email", .str "address", .str "phone", .str "realm"]

/-- The promise of lines 305-345: prompt for the new fields, then refuse to
rename a required scope. -/
def promptUpdate (cli : Cli) (flags : Flags) (scope : Scope) : Run (Scope × Answers) :=
  let update := cli.prompt (updateQuestions flags scope)
  let isRequired := JsVal.indexOf requiredScopes scope.name != -1
  ⟨[.prompt (updateQuestions flags scope)],
    if isRequired && !(scope.name.strictEq (update.prop "name")) then
      .error (JsError.new "This scope cannot be updated with a new name")
    else
      .ok (scope, update)⟩

/-- The promise chain of `update`, from `anvil.discover()` on (lines 273-354). -/
def updateChain (cli : Cli) (data : List JsVal) (flags : Flags) (anvil : Anvil) :
    List Event :=
  ((((((Run.call .discover anvil.discover).andThen fun _configuration =>
    selectScope cli anvil data).andThen fun scopeName =>
    Run.call (.scopesGet scopeName anvil.access_token)
      (anvil.get scopeName anvil.access_token)).andThen fun scope =>
    promptUpdate cli flags scope).andThen fun data =>
    Run.call (.scopesUpdate data.1.name data.2 anvil.access_token)
      (anvil.update data.1.name data.2 anvil.access_token)).andThen fun data =>
    (⟨displayScope cli data ++ [.done], .ok ()⟩ : Run Unit)).catchWith apiError

/-- Scope update (lines 257-356). -/
def update (cli : Cli) (data : List JsVal) (flags : Flags) : List Event :=
  withClient cli flags (updateChain cli data flags)

/-- The promise chain of `delete`, from `anvil.discover()` on (lines 378-417). -/
def deleteChain (cli : Cli) (data : List JsVal) (anvil : Anvil) : List Event :=
  ((((Run.call .discover anvil.discover).andThen fun _configuration =>
    selectScope cli anvil data).andThen fun scopeName =>
    if JsVal.indexOf requiredScopes scopeName != -1 then
      Run.reject (JsError.new "This scope cannot be deleted")
    else
      Run.call (.scopesDelete scopeName anvil.access_token)
        (anvil.delete scopeName anvil.access_token)).andThen fun _ =>
    (⟨[.done], .ok ()⟩ : Run Unit)).catchWith apiError

/-- Scope delete (lines 362-419). -/
def delete (cli : Cli) (data : List JsVal) (flags : Flags) : List Event :=
  withClient cli flags (deleteChain cli data)

end scopeCmd

/-- The five tasks registered on the `scope` command. -/
inductive ScopeTask where
  | register
  | list
  | info
  | update
  | delete

/-- The handler the dispatcher invokes for a task. -/
def ScopeTask.handler : ScopeTask → Cli → List JsVal → Flags → List Event
  | .register => scopeCmd.register
  | .list => scopeCmd.list
  | .info => scopeCmd.info
  | .update => scopeCmd.update
  | .delete => scopeCmd.delete

/-- The promise chain a task starts once the client is built. -/
def ScopeTask.chain : ScopeTask → Cli → List JsVal → Flags → Anvil → List Event
  | .register, cli, _, flags => scopeCmd.registerChain cli flags
  | .list, cli, _, _ => scopeCmd.listChain cli
  | .info, cli, data, _ => scopeCmd.infoChain cli data
  | .update, cli, data, flags => scopeCmd.updateChain cli data flags
  | .delete, cli, data, _ => scopeCmd.deleteChain cli data

/-! ## Observations on a run -/

/-- A remote resource operation: one of `scopes.create/list/get/update/delete`. -/
def Event.isResourceOp : Event → Bool
  | .scopesCreate _ _ => true
  | .scopesList _ => true
  | .scopesGet _ _ => true
  | .scopesUpdate _ _ _ => true
  | .scopesDelete _ _ => true
  | _ => false

/-- A call of `scopes.list`. -/
def Event.isScopesList : Event → Bool
  | .scopesList _ => true
  | _ => false

/-- A call of `scopes.get`. -/
def Event.isScopesGet : Event → Bool
  | .scopesGet _ _ => true
  | _ => false

/-- A call of `scopes.update`. -/
def Event.isScopesUpdate : Event → Bool
  | .scopesUpdate _ _ _ => true
  | _ => false

/-- A call of `scopes.delete`. -/
def Event.isScopesDelete : Event → Bool
  | .scopesDelete _ _ => true
  | _ => false

/-- A prompt that contains a single-choice (`list`) question. -/
def Event.isSelectPrompt : Event → Bool
  | .prompt questions => questions.any fun q => q.type == "list"
  | _ => false

/-- A report of an error: `cli.log.error` or `console.log`. -/
def Event.isReport : Event → Bool
  | .logError _ => true
  | .consoleLog _ => true
  | _ => false

/-- A call of `process.exit`. -/
def Event.isExit : Event → Bool
  | .exit _ => true
  | _ => false

/-- The event of `anvil.discover()`. -/
def Event.isDiscover : Event → Bool
  | .discover => true
  | _ => false

/-- Every resource operation of the run comes after a `discover` event; `seen`
tells whether one has already occurred. -/
def guarded : Bool → List Event → Bool
  | _, [] => true
  | seen, e :: es => (seen || !e.isResourceOp) && guarded (seen || e.isDiscover) es

/-- A logged line that starts with the given label. -/
def Event.labelled (label : String) : Event → Bool
  | .log (line :: _) => label.data.isPrefixOf line.data
  | _ => false

/-- The five displayed fields. -/
inductive ScopeField where
  | name
  | description
  | restricted
  | created
  | modified

/-- The label `displayScope` prints for a field. -/
def ScopeField.label : ScopeField → String
  | .name => "Name"
  | .description => "Description"
  | .restricted => "Restricted"
  | .created => "Created"
  | .modified => "Modified"

/-- The value of a field in a resource. -/
def ScopeField.value : ScopeField → Scope → JsVal
  | .name, data => data.name
  | .description, data => data.description
  | .restricted, data => data.restricted
  | .created, data => data.created
  | .modified, data => data.modified

/-- A field converted with `new Date` before it is displayed. -/
def ScopeField.isDate : ScopeField → Bool
  | .created => true
  | .modified => true
  | _ => false

/-- The column reached after printing `c` at column `col` on a terminal with a
tab stop every 8 columns; every other character takes one column. -/
def advance (col : Nat) (c : Char) : Nat :=
  if c = '\t' then (col / 8 + 1) * 8 else col + 1

/-- The column reached after printing `s` from column `col`. -/
def columnAfter (col : Nat) (s : String) : Nat := s.data.foldl advance col

/-! ## Sample collaborators, for the concrete runs -/

/-- A resource named `profile`. -/
def sampleScope : Scope :=
  { name := .str "profile", description := .str "Profile data", restricted := .bool false,
    created := .num 1500000000000, modified := .undefined }

/-- A client whose every call succeeds: `list` gives `a`, `b`, `c`, and `get`
gives the resource of the requested name. -/
def sampleAnvil : Anvil :=
  { access_token := .str "token"
    discover := .ok .null
    create := fun _ _ => .ok sampleScope
    list := fun _ =>
      .ok [{ sampleScope with name := .str "a" }, { sampleScope with name := .str "b" },
           { sampleScope with name := .str "c" }]
    get := fun name _ => .ok { sampleScope with name := name }
    update := fun _ update _ => .ok { sampleScope with name := update.prop "name" }
    delete := fun _ _ => .ok .null }

/-- A command line interface whose user picks `b` in a menu, and in the other
prompts types `profile2` as the name and keeps every default. -/
def sampleCli : Cli :=
  { issuersPrompt := fun _ => .ok "issuer"
    clientCreate := fun _ => .ok sampleAnvil
    prompt := fun questions => questions.map fun q =>
      (q.name, if q.type == "list" then .str "b"
               else if q.name == "name" then .str "profile2" else q.default)
    chalk := fun _ v => v.toStr
    table := fun head _ => .ok (String.intercalate " " head)
    newDate := fun v => match v with
      | .num n => "Date " ++ toString n
      | _ => "Invalid Date" }

/-- A command line interface whose issuer refuses the discovery with status 403. -/
def offlineCli : Cli :=
  { sampleCli with
    clientCreate := fun _ =>
      .ok { sampleAnvil with
            discover := .error (.object { statusCode := .num 403, message := "Forbidden" }) } }

/-! ## Theorems -/

/-- A string is strictly equal to exactly itself. -/
theorem JsVal.strictEq_str_left (s : String) (v : JsVal) :
    (JsVal.str s).strictEq v = true ↔ v = .str s := by
  cases v <;> simp [JsVal.strictEq]
  exact eq_comm

/-- A number is strictly equal to exactly itself. -/
theorem JsVal.strictEq_num_left (n : Int) (v : JsVal) :
    (JsVal.num n).strictEq v = true ↔ v = .num n := by
  cases v <;> simp [JsVal.strictEq]
  exact eq_comm

/-- The result of `indexOf` is never below `-1`. -/
theorem JsVal.indexOf_ge (xs : List JsVal) (v : JsVal) : -1 ≤ JsVal.indexOf xs v := by
  induction xs with
  | nil => simp [JsVal.indexOf]
  | cons x xs ih =>
    simp only [JsVal.indexOf]
    split
    · omega
    · split <;> omega

/-- The result of `indexOf` is `-1` exactly when no element is strictly equal to the value. -/
theorem JsVal.indexOf_eq_neg_one (xs : List JsVal) (v : JsVal) :
    JsVal.indexOf xs v = -1 ↔ ∀ x ∈ xs, x.strictEq v = false := by
  induction xs with
  | nil => simp [JsVal.indexOf]
  | cons x xs ih =>
    have := JsVal.indexOf_ge xs v
    simp only [JsVal.indexOf, List.mem_cons, forall_eq_or_imp]
    split
    · simp_all
    · split
      · simp_all
      · constructor
        · intro h; omega
        · intro h; simp_all

/-- The condition of line 22 holds exactly for the numbers 401 and 403. -/
theorem apiError_auth_iff (v : JsVal) :
    (v.truthy && JsVal.indexOf [.num 401, .num 403] v != -1) = true ↔
      (v = .num 401 ∨ v = .num 403) := by
  have hidx : JsVal.indexOf [.num 401, .num 403] v ≠ -1 ↔ (v = .num 401 ∨ v = .num 403) := by
    rw [ne_eq, JsVal.indexOf_eq_neg_one]
    simp only [List.mem_cons, List.mem_singleton, forall_eq_or_imp, forall_eq, List.not_mem_nil,
      IsEmpty.forall_iff, implies_true, and_true, Bool.eq_false_iff, ne_eq,
      JsVal.strictEq_num_left]
    tauto
  simp only [Bool.and_eq_true, bne_iff_ne, hidx]
  constructor
  · exact fun h => h.2
  · intro h
    refine ⟨?_, h⟩
    rcases h with h | h <;> subst h <;> simp [JsVal.truthy]

/-- Claim C4, as amended: for every error value other than `undefined` and `null`,
`apiError` logs the fixed message `Please login to the issuer.` exactly when the error
carries the status code 401 or 403, and otherwise passes the error itself to `console.log`;
in both cases the last step is `process.exit(1)`.  An error built by `new Error(message)`,
which has no status code, is reported verbatim. -/
theorem apiError_reports (err : JsError) (h1 : err ≠ .value .undefined)
    (h2 : err ≠ .value .null) :
    (∃ statusCode, err.statusCode = some statusCode) ∧
    (apiError err = [.logError (.text "Please login to the issuer."), .exit 1] ↔
      (err.statusCode = some (.num 401) ∨ err.statusCode = some (.num 403))) ∧
    (apiError err = [.consoleLog err, .exit 1] ↔
      ¬ (err.statusCode = some (.num 401) ∨ err.statusCode = some (.num 403))) ∧
    (∀ message,
      apiError (JsError.new message) = [.consoleLog (JsError.new message), .exit 1]) := by
  have hsome : ∃ statusCode, err.statusCode = some statusCode := by
    cases err with
    | object e => exact ⟨_, rfl⟩
    | value v =>
      cases v
      case undefined => exact absurd rfl h1
      case null => exact absurd rfl h2
      all_goals exact ⟨_, rfl⟩
  obtain ⟨sc, hsc⟩ := hsome
  have key := apiError_auth_iff sc
  refine ⟨⟨sc, hsc⟩, ?_, ?_, ?_⟩
  · by_cases h : (sc = .num 401 ∨ sc = .num 403)
    · simp [apiError, hsc, key.mpr h, h]
    · have hb : (sc.truthy && JsVal.indexOf [.num 401, .num 403] sc != -1) = false := by
        rw [Bool.eq_false_iff]; exact fun hc => h (key.mp hc)
      simp [apiError, hsc, hb, h]
  · by_cases h : (sc = .num 401 ∨ sc = .num 403)
    · simp [apiError, hsc, key.mpr h, h]
    · have hb : (sc.truthy && JsVal.indexOf [.num 401, .num 403] sc != -1) = false := by
        rw [Bool.eq_false_iff]; exact fun hc => h (key.mp hc)
      simp [apiError, hsc, hb, h]
  · intro message
    simp [apiError, JsError.new, JsError.statusCode, JsVal.truthy]

/-- The scenario of a remote call refused with status 403: the login message, then exit 1. -/
theorem apiError_reports_witness :
    apiError (.object { statusCode := .num 403, message := "Forbidden" }) =
      [.logError (.text "Please login to the issuer."), .exit 1] :=
  (apiError_reports (.object { statusCode := .num 403, message := "Forbidden" })
    (fun h => JsError.noConfusion h) (fun h => JsError.noConfusion h)).2.1.mpr (Or.inr rfl)

/-- Claim C4 fails as stated: on the error values `undefined` and `null` reading
`err.statusCode` throws, so nothing is reported and `process.exit(1)` is never reached. -/
theorem apiError_undefined_throws :
    apiError (.value .undefined) = [.typeError] ∧
    apiError (.value .null) = [.typeError] ∧
    (apiError (.value .undefined)).any (fun e => e.isReport || e.isExit) = false ∧
    (apiError (.value .null)).any (fun e => e.isReport || e.isExit) = false :=
  ⟨rfl, rfl, rfl, rfl⟩

/-- The string `tabs`, by the band of the key length. -/
theorem tabs_eq (L : Nat) :
    tabs L = if L < 8 then "\t\t\t" else if L < 16 then "\t\t" else "\t" := by
  unfold tabs
  by_cases h8 : L < 8
  · have h1 : (24 - (L : Int) > 8) := by omega
    have h2 : (24 - (L : Int) > 16) := by omega
    simp only [h1, h2, h8, if_true]
    rfl
  · by_cases h16 : L < 16
    · have h1 : (24 - (L : Int) > 8) := by omega
      have h2 : ¬ (24 - (L : Int) > 16) := by omega
      simp only [h1, h2, h8, h16, if_true, if_false]
      rfl
    · have h1 : ¬ (24 - (L : Int) > 8) := by omega
      have h2 : ¬ (24 - (L : Int) > 16) := by omega
      simp only [h1, h2, h8, h16, if_false]

/-- The number of tab characters, by the band of the key length. -/
theorem tabs_length (L : Nat) :
    (tabs L).length = if L < 8 then 3 else if L < 16 then 2 else 1 := by
  rw [tabs_eq]
  split
  · rfl
  · split <;> rfl

/-- Claim C8: the number of tab characters `displayField` puts between the label and the
value does not grow with the label length: for `L1 ≤ L2` the count at `L2` is at most the
count at `L1`; the count is 3 below 8, 2 from 8 to 15 and 1 from 16 on, and the string holds
nothing but tab characters. -/
theorem tab_count_antitone (L1 L2 : Nat) (h : L1 ≤ L2) :
    (tabs L2).length ≤ (tabs L1).length ∧
    (tabs L1).length = (if L1 < 8 then 3 else if L1 < 16 then 2 else 1) ∧
    (tabs L2).length = (if L2 < 8 then 3 else if L2 < 16 then 2 else 1) ∧
    (∀ c ∈ (tabs L1).data ++ (tabs L2).data, c = '\t') := by
  refine ⟨?_, tabs_length L1, tabs_length L2, ?_⟩
  · rw [tabs_length, tabs_length]
    split_ifs <;> omega
  · intro c hc
    rw [tabs_eq, tabs_eq] at hc
    split_ifs at hc <;> simp at hc <;> exact hc

/-- The labels of length 4 and 11: three tabs, then two. -/
theorem tab_count_antitone_witness :
    (tabs 11).length ≤ (tabs 4).length ∧
    (tabs 4).length = (if 4 < 8 then 3 else if 4 < 16 then 2 else 1) ∧
    (tabs 11).length = (if 11 < 8 then 3 else if 11 < 16 then 2 else 1) ∧
    (∀ c ∈ (tabs 4).data ++ (tabs 11).data, c = '\t') :=
  tab_count_antitone 4 11 (by decide)

/-- From any column below 24 the tabs computed for that length lead to column 24. -/
theorem columnAfter_tabs (L : Nat) (h : L < 24) : columnAfter L (tabs L) = 24 := by
  rw [tabs_eq]
  unfold columnAfter
  split_ifs with h8 h16
  · simp [advance]; omega
  · simp [advance]; omega
  · simp [advance]; omega

/-- Characters other than the tab advance the column by one each. -/
theorem foldl_advance_of_no_tab (l : List Char) (col : Nat) (h : ∀ c ∈ l, c ≠ '\t') :
    l.foldl advance col = col + l.length := by
  induction l generalizing col with
  | nil => simp
  | cons c cs ih =>
    have hc : c ≠ '\t' := h c (List.mem_cons_self _ _)
    have hcs : ∀ d ∈ cs, d ≠ '\t' := fun d hd => h d (List.mem_cons_of_mem _ hd)
    simp only [List.foldl_cons, List.length_cons, advance, hc, if_false]
    rw [ih _ hcs]
    omega

/-- A string of characters of one code unit each has as many code units as characters. -/
theorem sum_utf16Units_of_bmp (l : List Char) (h : ∀ c ∈ l, utf16Units c = 1) :
    (l.map utf16Units).sum = l.length := by
  induction l with
  | nil => simp
  | cons c cs ih =>
    have hc := h c (List.mem_cons_self _ _)
    have hcs : ∀ d ∈ cs, utf16Units d = 1 := fun d hd => h d (List.mem_cons_of_mem _ hd)
    simp only [List.map_cons, List.sum_cons, List.length_cons, hc, ih hcs]
    omega

/-- Claim C10, as amended: with a tab stop every 8 columns, for a label without tab
characters whose characters take one code unit (and one column) each, so that its length `L`
is also its width, and whose length is below 24,
`displayField` logs the label, the computed tabs and the value, and the value starts at
column 24: the label ends at column `L` and the tabs (3 if `24 - L > 16`, 2 if
`8 < 24 - L ≤ 16`, otherwise 1) advance to column exactly 24. -/
theorem displayField_value_column (cli : Cli) (key : String) (value : JsVal)
    (format : Option String)
    (hkey : ∀ c ∈ key.data, c ≠ '\t' ∧ utf16Units c = 1)
    (hlen : jsLength key < 24) (hshown : displayed value = true) :
    displayField cli key value format =
      [.log [key ++ tabs (jsLength key) ++ formatValue cli value format]] ∧
    columnAfter 0 key = jsLength key ∧
    columnAfter 0 (key ++ tabs (jsLength key)) = 24 ∧
    (tabs (jsLength key)).length =
      (if 24 - (jsLength key : Int) > 16 then 3
       else if 24 - (jsLength key : Int) > 8 then 2 else 1) := by
  have hL : jsLength key = key.data.length :=
    sum_utf16Units_of_bmp _ fun c hc => (hkey c hc).2
  have hcol : columnAfter 0 key = jsLength key := by
    unfold columnAfter
    rw [foldl_advance_of_no_tab _ _ fun c hc => (hkey c hc).1, hL]
    omega
  refine ⟨by simp [displayField, hshown], hcol, ?_, ?_⟩
  · have := columnAfter_tabs (jsLength key) hlen
    unfold columnAfter at this hcol ⊢
    rw [String.data_append, List.foldl_append, hcol, this]
  · rw [tabs_length]
    split_ifs <;> omega

/-- The label `Description`: eleven columns, two tabs, value at column 24. -/
theorem displayField_value_column_witness :
    displayField sampleCli "Description" (.str "Profile data") none =
      [.log ["Description" ++ tabs (jsLength "Description") ++
        formatValue sampleCli (.str "Profile data") none]] ∧
    columnAfter 0 "Description" = jsLength "Description" ∧
    columnAfter 0 ("Description" ++ tabs (jsLength "Description")) = 24 ∧
    (tabs (jsLength "Description")).length =
      (if 24 - (jsLength "Description" : Int) > 16 then 3
       else if 24 - (jsLength "Description" : Int) > 8 then 2 else 1) :=
  displayField_value_column sampleCli "Description" (.str "Profile data") none
    (by decide) (by decide) (by rfl)

/-- Claim C10 fails as stated: the label of four characters outside the basic plane has
length 8 and no tab character, gets two tabs from column 4, and its value starts at column
16, not 24. -/
theorem displayField_astral_label_column :
    jsLength "𝒳𝒳𝒳𝒳" = 8 ∧
    "𝒳𝒳𝒳𝒳".data.all (fun c => c != '\t') = true ∧
    (tabs (jsLength "𝒳𝒳𝒳𝒳")).length = 2 ∧
    columnAfter 0 "𝒳𝒳𝒳𝒳" = 4 ∧
    columnAfter 0 ("𝒳𝒳𝒳𝒳" ++ tabs (jsLength "𝒳𝒳𝒳𝒳")) = 16 := by
  decide

/-- A string does not start with a label whose first character differs from its own. -/
theorem isPrefixOf_append_of_head_ne (label key rest : String)
    (h : ∃ a as b bs, label.data = a :: as ∧ key.data = b :: bs ∧ a ≠ b) :
    label.data.isPrefixOf (key ++ rest).data = false := by
  obtain ⟨a, as, b, bs, hl, hk, hne⟩ := h
  rw [String.data_append, hl, hk]
  simp [List.isPrefixOf, hne]

/-- No line of `displayField` for one key starts with a label of another first character. -/
theorem displayField_not_labelled (cli : Cli) (label key : String) (value : JsVal)
    (format : Option String)
    (h : ∃ a as b bs, label.data = a :: as ∧ key.data = b :: bs ∧ a ≠ b) :
    (displayField cli key value format).any (Event.labelled label) = false := by
  unfold displayField
  split
  · simp only [List.any_cons, List.any_nil, Bool.or_false, Event.labelled]
    rw [String.append_assoc]
    exact isPrefixOf_append_of_head_ne label key _ h
  · rfl

/-- A value that fails the test of line 36 gives no line. -/
theorem displayField_of_not_displayed (cli : Cli) (key : String) (value : JsVal)
    (format : Option String) (h : displayed value = false) :
    displayField cli key value format = [] := by
  simp [displayField, h]

/-- Claim C6, as amended: `displayScope` logs no line with the label of a field whose value
is `undefined`, for each of the five fields and whatever the other four hold; for Name,
Description and Restricted the same holds when the value is an empty array. -/
theorem displayScope_omits (cli : Cli) (data : Scope) (f : ScopeField)
    (h : f.value data = .undefined ∨ (f.isDate = false ∧ f.value data = .arr [])) :
    (displayScope cli data).any (Event.labelled f.label) = false := by
  have hown : ∀ v : JsVal, (v = .undefined ∨ v = .arr []) → displayed v = false := by
    intro v hv
    rcases hv with hv | hv <;> subst hv <;> rfl
  cases f
  case name =>
    have hv : displayed data.name = false :=
      hown _ (h.elim Or.inl fun h => Or.inr h.2)
    simp only [displayScope, List.any_append, ScopeField.label,
      displayField_of_not_displayed cli "Name" _ _ hv]
    rw [displayField_not_labelled cli "Name" "Description" _ _
        ⟨_, _, _, _, rfl, rfl, by decide⟩,
      displayField_not_labelled cli "Name" "Restricted" _ _ ⟨_, _, _, _, rfl, rfl, by decide⟩,
      displayField_not_labelled cli "Name" "Created" _ _ ⟨_, _, _, _, rfl, rfl, by decide⟩,
      displayField_not_labelled cli "Name" "Modified" _ _ ⟨_, _, _, _, rfl, rfl, by decide⟩]
    rfl
  case description =>
    have hv : displayed data.description = false :=
      hown _ (h.elim Or.inl fun h => Or.inr h.2)
    simp only [displayScope, List.any_append, ScopeField.label,
      displayField_of_not_displayed cli "Description" _ _ hv]
    rw [displayField_not_labelled cli "Description" "Name" _ _
        ⟨_, _, _, _, rfl, rfl, by decide⟩,
      displayField_not_labelled cli "Description" "Restricted" _ _
        ⟨_, _, _, _, rfl, rfl, by decide⟩,
      displayField_not_labelled cli "Description" "Created" _ _
        ⟨_, _, _, _, rfl, rfl, by decide⟩,
      displayField_not_labelled cli "Description" "Modified" _ _
        ⟨_, _, _, _, rfl, rfl, by decide⟩]
    rfl
  case restricted =>
    have hv : displayed data.restricted = false :=
      hown _ (h.elim Or.inl fun h => Or.inr h.2)
    simp only [displayScope, List.any_append, ScopeField.label,
      displayField_of_not_displayed cli "Restricted" _ _ hv]
    rw [displayField_not_labelled cli "Restricted" "Name" _ _ ⟨_, _, _, _, rfl, rfl, by decide⟩,
      displayField_not_labelled cli "Restricted" "Description" _ _
        ⟨_, _, _, _, rfl, rfl, by decide⟩,
      displayField_not_labelled cli "Restricted" "Created" _ _
        ⟨_, _, _, _, rfl, rfl, by decide⟩,
      displayField_not_labelled cli "Restricted" "Modified" _ _
        ⟨_, _, _, _, rfl, rfl, by decide⟩]
    rfl
  case created =>
    have hu : data.created = .undefined := by
      rcases h with h | h
      · exact h
      · exact absurd h.1 (by decide)
    simp only [displayScope, List.any_append, ScopeField.label, hu, JsVal.and, JsVal.truthy,
      displayField_of_not_displayed cli "Created" .undefined _ rfl]
    rw [displayField_not_labelled cli "Created" "Name" _ _ ⟨_, _, _, _, rfl, rfl, by decide⟩,
      displayField_not_labelled cli "Created" "Description" _ _
        ⟨_, _, _, _, rfl, rfl, by decide⟩,
      displayField_not_labelled cli "Created" "Restricted" _ _
        ⟨_, _, _, _, rfl, rfl, by decide⟩,
      displayField_not_labelled cli "Created" "Modified" _ _
        ⟨_, _, _, _, rfl, rfl, by decide⟩]
    rfl
  case modified =>
    have hu : data.modified = .undefined := by
      rcases h with h | h
      · exact h
      · exact absurd h.1 (by decide)
    simp only [displayScope, List.any_append, ScopeField.label, hu, JsVal.and, JsVal.truthy,
      displayField_of_not_displayed cli "Modified" .undefined _ rfl]
    rw [displayField_not_labelled cli "Modified" "Name" _ _ ⟨_, _, _, _, rfl, rfl, by decide⟩,
      displayField_not_labelled cli "Modified" "Description" _ _
        ⟨_, _, _, _, rfl, rfl, by decide⟩,
      displayField_not_labelled cli "Modified" "Restricted" _ _
        ⟨_, _, _, _, rfl, rfl, by decide⟩,
      displayField_not_labelled cli "Modified" "Created" _ _
        ⟨_, _, _, _, rfl, rfl, by decide⟩]
    rfl

/-- A resource whose description is the empty array: no `Description` line. -/
theorem displayScope_omits_witness :
    (displayScope sampleCli
      { sampleScope with description := .arr [] }).any
        (Event.labelled ScopeField.description.label) = false :=
  displayScope_omits sampleCli { sampleScope with description := .arr [] } .description
    (Or.inr ⟨rfl, rfl⟩)

/-- Claim C6 fails as stated: a resource whose `created` is the empty array gets a
`Created` line, because `[] && new Date([])` is a date, not an empty array. -/
theorem displayScope_created_empty_array_shown :
    ScopeField.value .created ⟨.undefined, .undefined, .undefined, .arr [], .undefined⟩ =
      .arr [] ∧
    displayScope sampleCli ⟨.undefined, .undefined, .undefined, .arr [], .undefined⟩ =
      [.log [], .log ["Created\t\t\tInvalid Date"]] ∧
    (displayScope sampleCli ⟨.undefined, .undefined, .undefined, .arr [], .undefined⟩).any
      (Event.labelled ScopeField.created.label) = true :=
  ⟨rfl, rfl, rfl⟩

/-- The only events of `displayField` are logged lines. -/
theorem displayField_any_of_not_log (cli : Cli) (key : String) (value : JsVal)
    (format : Option String) (p : Event → Bool) (hp : ∀ args, p (.log args) = false) :
    (displayField cli key value format).any p = false := by
  unfold displayField
  split <;> simp [hp]

/-- The only events of `displayScope` are logged lines. -/
theorem displayScope_any_of_not_log (cli : Cli) (data : Scope) (p : Event → Bool)
    (hp : ∀ args, p (.log args) = false) : (displayScope cli data).any p = false := by
  simp [displayScope, List.any_append, displayField_any_of_not_log, hp]

/-- The only events of `apiError` are a report and the exit, or the TypeError. -/
theorem apiError_any_of_not_report (err : JsError) (p : Event → Bool)
    (h1 : ∀ w, p (.logError w) = false) (h2 : ∀ e, p (.consoleLog e) = false)
    (h3 : ∀ c, p (.exit c) = false) (h4 : p .typeError = false) :
    (apiError err).any p = false := by
  unfold apiError
  split
  · simp [h4]
  · split <;> simp [h1, h2, h3]

/-- The three outcomes of the prologue. -/
theorem withClient_cases (cli : Cli) (flags : Flags) (body : Anvil → List Event) :
    (∃ e, cli.issuersPrompt (flags.issuer.or flags.i) = .error e ∧
      scopeCmd.withClient cli flags body =
        [.issuersPrompt (flags.issuer.or flags.i), .logError (.error e), .exit 1]) ∨
    (∃ issuer e, cli.issuersPrompt (flags.issuer.or flags.i) = .ok issuer ∧
      cli.clientCreate issuer = .error e ∧
      scopeCmd.withClient cli flags body =
        [.issuersPrompt (flags.issuer.or flags.i), .clientCreate issuer,
          .logError (.error e), .exit 1]) ∨
    (∃ issuer anvil, cli.issuersPrompt (flags.issuer.or flags.i) = .ok issuer ∧
      cli.clientCreate issuer = .ok anvil ∧
      scopeCmd.withClient cli flags body =
        [.issuersPrompt (flags.issuer.or flags.i), .clientCreate issuer] ++ body anvil) := by
  unfold scopeCmd.withClient
  rcases hi : cli.issuersPrompt (flags.issuer.or flags.i) with e | issuer
  · exact Or.inl ⟨e, rfl, by simp [hi]⟩
  · rcases hc : cli.clientCreate issuer with e | anvil
    · exact Or.inr (Or.inl ⟨issuer, e, rfl, hc, by simp [hi, hc]⟩)
    · exact Or.inr (Or.inr ⟨issuer, anvil, rfl, hc, by simp [hi, hc]⟩)

/-- The prologue when the issuer is chosen and the client is built. -/
theorem withClient_ok (cli : Cli) (flags : Flags) (body : Anvil → List Event)
    (issuer : Issuer) (anvil : Anvil)
    (hi : cli.issuersPrompt (flags.issuer.or flags.i) = .ok issuer)
    (hc : cli.clientCreate issuer = .ok anvil) :
    scopeCmd.withClient cli flags body =
      [.issuersPrompt (flags.issuer.or flags.i), .clientCreate issuer] ++ body anvil := by
  simp [scopeCmd.withClient, hi, hc]

/-- A kind of event that the prologue never produces occurs in a run only through the chain. -/
theorem withClient_any (cli : Cli) (flags : Flags) (body : Anvil → List Event)
    (p : Event → Bool) (h0 : ∀ v, p (.issuersPrompt v) = false)
    (h1 : ∀ v, p (.clientCreate v) = false) (h2 : ∀ w, p (.logError w) = false)
    (h3 : ∀ c, p (.exit c) = false) (hb : ∀ anvil, (body anvil).any p = false) :
    (scopeCmd.withClient cli flags body).any p = false := by
  rcases withClient_cases cli flags body with ⟨e, _, h⟩ | ⟨issuer, e, _, _, h⟩ |
    ⟨issuer, anvil, _, _, h⟩ <;> rw [h] <;> simp [h0, h1, h2, h3, hb]

/-- A non-empty explicit name resolves at once, with no event. -/
theorem selectScope_explicit (cli : Cli) (anvil : Anvil) (x : String) (rest : List JsVal)
    (hx : x ≠ "") :
    scopeCmd.selectScope cli anvil (.str x :: rest) = ⟨[], .ok (.str x)⟩ := by
  simp [scopeCmd.selectScope, scopeCmd.arg0, JsVal.truthy, hx, Run.resolve]

/-- The chain of `register`, stage by stage. -/
theorem registerChain_eq (cli : Cli) (flags : Flags) (anvil : Anvil) :
    scopeCmd.registerChain cli flags anvil =
      .discover :: match anvil.discover with
        | .error e => apiError e
        | .ok _ =>
          .prompt (scopeCmd.registerQuestions flags) ::
          .scopesCreate (cli.prompt (scopeCmd.registerQuestions flags)) anvil.access_token ::
          match anvil.create (cli.prompt (scopeCmd.registerQuestions flags))
              anvil.access_token with
          | .error e => apiError e
          | .ok registration => displayScope cli registration ++ [.done] := by
  unfold scopeCmd.registerChain
  rcases hd : anvil.discover with e | cfg
  · simp [Run.andThen, Run.call, Run.catchWith, hd]
  · rcases hc : anvil.create (cli.prompt (scopeCmd.registerQuestions flags))
        anvil.access_token with e | r <;>
      simp [Run.andThen, Run.call, Run.catchWith, hd, hc]

/-- The chain of `list`, stage by stage. -/
theorem listChain_eq (cli : Cli) (anvil : Anvil) :
    scopeCmd.listChain cli anvil =
      .discover :: match anvil.discover with
        | .error e => apiError e
        | .ok _ =>
          .scopesList anvil.access_token ::
          match anvil.list anvil.access_token with
          | .error e => apiError e
          | .ok scopes =>
            match cli.table ["Name", "Description", "Restricted"]
              (scopes.map fun scope =>
                [.str (cli.chalk "bold" scope.name), scope.description, scope.restricted]) with
            | .error e => apiError e
            | .ok rendered => [.log [rendered], .done] := by
  unfold scopeCmd.listChain
  rcases hd : anvil.discover with e | cfg
  · simp [Run.andThen, Run.call, Run.catchWith, hd]
  · rcases hl : anvil.list anvil.access_token with e | r
    · simp [Run.andThen, Run.call, Run.catchWith, hd, hl]
    · rcases ht : cli.table ["Name", "Description", "Restricted"]
        (r.map fun scope =>
          [.str (cli.chalk "bold" scope.name), scope.description, scope.restricted])
        with e | rendered <;>
        simp [Run.andThen, Run.call, Run.catchWith, Run.reject, hd, hl, ht]

/-- The chain of `info`, stage by stage. -/
theorem infoChain_eq (cli : Cli) (data : List JsVal) (anvil : Anvil) :
    scopeCmd.infoChain cli data anvil =
      .discover :: match anvil.discover with
        | .error e => apiError e
        | .ok _ =>
          (scopeCmd.selectScope cli anvil data).events ++
          match (scopeCmd.selectScope cli anvil data).result with
          | .error e => apiError e
          | .ok scopeName =>
            .scopesGet scopeName anvil.access_token ::
            match anvil.get scopeName anvil.access_token with
            | .error e => apiError e
            | .ok scope => displayScope cli scope ++ [.done] := by
  unfold scopeCmd.infoChain
  rcases hd : anvil.discover with e | cfg
  · simp [Run.andThen, Run.call, Run.catchWith, hd]
  · rcases hs : (scopeCmd.selectScope cli anvil data).result with e | n
    · simp [Run.andThen, Run.call, Run.catchWith, hd, hs]
    · rcases hg : anvil.get n anvil.access_token with e | sc <;>
        simp [Run.andThen, Run.call, Run.catchWith, hd, hs, hg]

/-- The chain of `update`, stage by stage. -/
theorem updateChain_eq (cli : Cli) (data : List JsVal) (flags : Flags) (anvil : Anvil) :
    scopeCmd.updateChain cli data flags anvil =
      .discover :: match anvil.discover with
        | .error e => apiError e
        | .ok _ =>
          (scopeCmd.selectScope cli anvil data).events ++
          match (scopeCmd.selectScope cli anvil data).result with
          | .error e => apiError e
          | .ok scopeName =>
            .scopesGet scopeName anvil.access_token ::
            match anvil.get scopeName anvil.access_token with
            | .error e => apiError e
            | .ok scope =>
              .prompt (scopeCmd.updateQuestions flags scope) ::
              match (scopeCmd.promptUpdate cli flags scope).result with
              | .error e => apiError e
              | .ok d =>
                .scopesUpdate d.1.name d.2 anvil.access_token ::
                match anvil.update d.1.name d.2 anvil.access_token with
                | .error e => apiError e
                | .ok updated => displayScope cli updated ++ [.done] := by
  unfold scopeCmd.updateChain
  have hpe : ∀ sc, (scopeCmd.promptUpdate cli flags sc).events =
      [.prompt (scopeCmd.updateQuestions flags sc)] := fun _ => rfl
  rcases hd : anvil.discover with e | cfg
  · simp [Run.andThen, Run.call, Run.catchWith, hd]
  · rcases hs : (scopeCmd.selectScope cli anvil data).result with e | n
    · simp [Run.andThen, Run.call, Run.catchWith, hd, hs]
    · rcases hg : anvil.get n anvil.access_token with e | sc
      · simp [Run.andThen, Run.call, Run.catchWith, hd, hs, hg]
      · rcases hp : (scopeCmd.promptUpdate cli flags sc).result with e | d
        · simp [Run.andThen, Run.call, Run.catchWith, hd, hs, hg, hp, hpe]
        · rcases hu : anvil.update d.1.name d.2 anvil.access_token with e | r <;>
            simp [Run.andThen, Run.call, Run.catchWith, hd, hs, hg, hp, hpe, hu]

/-- The chain of `delete`, stage by stage. -/
theorem deleteChain_eq (cli : Cli) (data : List JsVal) (anvil : Anvil) :
    scopeCmd.deleteChain cli data anvil =
      .discover :: match anvil.discover with
        | .error e => apiError e
        | .ok _ =>
          (scopeCmd.selectScope cli anvil data).events ++
          match (scopeCmd.selectScope cli anvil data).result with
          | .error e => apiError e
          | .ok scopeName =>
            if JsVal.indexOf scopeCmd.requiredScopes scopeName != -1 then
              apiError (JsError.new "This scope cannot be deleted")
            else
              .scopesDelete scopeName anvil.access_token ::
              match anvil.delete scopeName anvil.access_token with
              | .error e => apiError e
              | .ok _ => [.done] := by
  unfold scopeCmd.deleteChain
  rcases hd : anvil.discover with e | cfg
  · simp [Run.andThen, Run.call, Run.catchWith, hd]
  · rcases hs : (scopeCmd.selectScope cli anvil data).result with e | n
    · simp [Run.andThen, Run.call, Run.catchWith, hd, hs]
    · by_cases hr : (JsVal.indexOf scopeCmd.requiredScopes n != -1) = true
      · simp [Run.andThen, Run.call, Run.catchWith, Run.reject, hd, hs, hr]
      · rcases hx : anvil.delete n anvil.access_token with e | r <;>
          simp [Run.andThen, Run.call, Run.catchWith, Run.reject, hd, hs, hr, hx]

/-- The resolution promise, case by case. -/
theorem selectScope_eq (cli : Cli) (anvil : Anvil) (data : List JsVal) :
    scopeCmd.selectScope cli anvil data =
      if (scopeCmd.arg0 data).truthy then ⟨[], .ok (scopeCmd.arg0 data)⟩
      else match anvil.list anvil.access_token with
        | .error e => ⟨[.scopesList anvil.access_token], .error e⟩
        | .ok scopes =>
          ⟨[.scopesList anvil.access_token, .prompt (scopeCmd.selectQuestions scopes)],
            .ok ((cli.prompt (scopeCmd.selectQuestions scopes)).prop "scopeName")⟩ := by
  unfold scopeCmd.selectScope
  split
  · rfl
  · rcases hl : anvil.list anvil.access_token with e | scopes <;>
      simp [Run.andThen, Run.call, hl]

/-- The test `requiredScopes.indexOf(v) !== -1` is membership in the six names. -/
theorem indexOf_requiredScopes (v : JsVal) :
    (JsVal.indexOf scopeCmd.requiredScopes v != -1) = true ↔ v ∈ scopeCmd.requiredScopes := by
  rw [bne_iff_ne, ne_eq, JsVal.indexOf_eq_neg_one]
  simp only [scopeCmd.requiredScopes, List.mem_cons, List.mem_singleton, forall_eq_or_imp,
    forall_eq, List.not_mem_nil, IsEmpty.forall_iff, implies_true, and_true, Bool.eq_false_iff,
    ne_eq, JsVal.strictEq_str_left]
  tauto

/-- A required name is strictly equal to exactly itself. -/
theorem strictEq_of_mem_requiredScopes (n v : JsVal) (h : n ∈ scopeCmd.requiredScopes) :
    n.strictEq v = true ↔ v = n := by
  simp only [scopeCmd.requiredScopes, List.mem_cons, List.mem_singleton, List.not_mem_nil,
    or_false] at h
  rcases h with h | h | h | h | h | h <;> subst h <;> exact JsVal.strictEq_str_left _ _

/-- The prompt stage rejects the renaming of a required scope. -/
theorem promptUpdate_reject (cli : Cli) (flags : Flags) (scope : Scope)
    (h : scope.name ∈ scopeCmd.requiredScopes ∧
      (cli.prompt (scopeCmd.updateQuestions flags scope)).prop "name" ≠ scope.name) :
    (scopeCmd.promptUpdate cli flags scope).result =
      .error (JsError.new "This scope cannot be updated with a new name") := by
  have h1 := (indexOf_requiredScopes scope.name).mpr h.1
  have h2 : scope.name.strictEq
      ((cli.prompt (scopeCmd.updateQuestions flags scope)).prop "name") = false := by
    rw [Bool.eq_false_iff]
    exact fun hc => h.2 ((strictEq_of_mem_requiredScopes _ _ h.1).mp hc)
  simp [scopeCmd.promptUpdate, h1, h2]

/-- The prompt stage resolves in every other case. -/
theorem promptUpdate_accept (cli : Cli) (flags : Flags) (scope : Scope)
    (h : ¬ (scope.name ∈ scopeCmd.requiredScopes ∧
      (cli.prompt (scopeCmd.updateQuestions flags scope)).prop "name" ≠ scope.name)) :
    (scopeCmd.promptUpdate cli flags scope).result =
      .ok (scope, cli.prompt (scopeCmd.updateQuestions flags scope)) := by
  by_cases hm : scope.name ∈ scopeCmd.requiredScopes
  · have heq : (cli.prompt (scopeCmd.updateQuestions flags scope)).prop "name" = scope.name := by
      by_contra hne
      exact h ⟨hm, hne⟩
    have h2 := (strictEq_of_mem_requiredScopes _ _ hm).mpr heq
    simp [scopeCmd.promptUpdate, h2]
  · have h1 : (JsVal.indexOf scopeCmd.requiredScopes scope.name != -1) = false := by
      rw [Bool.eq_false_iff]
      exact fun hc => hm ((indexOf_requiredScopes _).mp hc)
    simp [scopeCmd.promptUpdate, h1]

/-- The resolution promise produces only `scopes.list` and prompt events. -/
theorem selectScope_events_any (cli : Cli) (anvil : Anvil) (data : List JsVal)
    (p : Event → Bool) (h1 : ∀ t, p (.scopesList t) = false)
    (h2 : ∀ q, p (.prompt q) = false) :
    (scopeCmd.selectScope cli anvil data).events.any p = false := by
  rw [selectScope_eq]
  split
  · rfl
  · split <;> simp [h1, h2]

/-- Claim C1: in a run of `update` that has fetched the current resource `scope` and
prompted the answers `update`, the run ends with the policy error `This scope cannot be
updated with a new name` (reported by `apiError`, then exit 1) without any call of
`scopes.update` if and only if `scope.name` is one of the six required names and
`update.name` differs from it; in every other case the next step is the call
`scopes.update(scope.name, update, token)`. -/
theorem update_policy (cli : Cli) (data : List JsVal) (flags : Flags) (issuer : Issuer)
    (anvil : Anvil) (cfg scopeName : JsVal) (scope : Scope)
    (hi : cli.issuersPrompt (flags.issuer.or flags.i) = .ok issuer)
    (hc : cli.clientCreate issuer = .ok anvil)
    (hd : anvil.discover = .ok cfg)
    (hs : (scopeCmd.selectScope cli anvil data).result = .ok scopeName)
    (hg : anvil.get scopeName anvil.access_token = .ok scope) :
    ((scopeCmd.update cli data flags =
        [.issuersPrompt (flags.issuer.or flags.i), .clientCreate issuer, .discover] ++
          (scopeCmd.selectScope cli anvil data).events ++
          [.scopesGet scopeName anvil.access_token,
            .prompt (scopeCmd.updateQuestions flags scope),
            .consoleLog (JsError.new "This scope cannot be updated with a new name"),
            .exit 1] ∧
      (scopeCmd.update cli data flags).any Event.isScopesUpdate = false) ↔
      (scope.name ∈ scopeCmd.requiredScopes ∧
        (cli.prompt (scopeCmd.updateQuestions flags scope)).prop "name" ≠ scope.name)) ∧
    (¬ (scope.name ∈ scopeCmd.requiredScopes ∧
        (cli.prompt (scopeCmd.updateQuestions flags scope)).prop "name" ≠ scope.name) →
      scopeCmd.update cli data flags =
        [.issuersPrompt (flags.issuer.or flags.i), .clientCreate issuer, .discover] ++
          (scopeCmd.selectScope cli anvil data).events ++
          [.scopesGet scopeName anvil.access_token,
            .prompt (scopeCmd.updateQuestions flags scope),
            .scopesUpdate scope.name (cli.prompt (scopeCmd.updateQuestions flags scope))
              anvil.access_token] ++
          (match anvil.update scope.name (cli.prompt (scopeCmd.updateQuestions flags scope))
              anvil.access_token with
            | .error e => apiError e
            | .ok updated => displayScope cli updated ++ [.done])) := by
  have hrun : scopeCmd.update cli data flags =
      [.issuersPrompt (flags.issuer.or flags.i), .clientCreate issuer, .discover] ++
        (scopeCmd.selectScope cli anvil data).events ++
        [.scopesGet scopeName anvil.access_token,
          .prompt (scopeCmd.updateQuestions flags scope)] ++
        (match (scopeCmd.promptUpdate cli flags scope).result with
          | .error e => apiError e
          | .ok d =>
            .scopesUpdate d.1.name d.2 anvil.access_token ::
            match anvil.update d.1.name d.2 anvil.access_token with
            | .error e => apiError e
            | .ok updated => displayScope cli updated ++ [.done]) := by
    unfold scopeCmd.update
    rw [withClient_ok cli flags _ issuer anvil hi hc, updateChain_eq]
    simp [hd, hs, hg]
  have hacc : ¬ (scope.name ∈ scopeCmd.requiredScopes ∧
        (cli.prompt (scopeCmd.updateQuestions flags scope)).prop "name" ≠ scope.name) →
      scopeCmd.update cli data flags =
        [.issuersPrompt (flags.issuer.or flags.i), .clientCreate issuer, .discover] ++
          (scopeCmd.selectScope cli anvil data).events ++
          [.scopesGet scopeName anvil.access_token,
            .prompt (scopeCmd.updateQuestions flags scope),
            .scopesUpdate scope.name (cli.prompt (scopeCmd.updateQuestions flags scope))
              anvil.access_token] ++
          (match anvil.update scope.name (cli.prompt (scopeCmd.updateQuestions flags scope))
              anvil.access_token with
            | .error e => apiError e
            | .ok updated => displayScope cli updated ++ [.done]) := by
    intro h
    rw [hrun, promptUpdate_accept cli flags scope h]
    simp
  refine ⟨⟨?_, ?_⟩, hacc⟩
  · rintro ⟨-, hany⟩
    by_contra h
    rw [hacc h] at hany
    simp [Event.isScopesUpdate] at hany
  · intro h
    have hrej : scopeCmd.update cli data flags =
        [.issuersPrompt (flags.issuer.or flags.i), .clientCreate issuer, .discover] ++
          (scopeCmd.selectScope cli anvil data).events ++
          [.scopesGet scopeName anvil.access_token,
            .prompt (scopeCmd.updateQuestions flags scope),
            .consoleLog (JsError.new "This scope cannot be updated with a new name"),
            .exit 1] := by
      rw [hrun, promptUpdate_reject cli flags scope h]
      simp [apiError, JsError.new, JsError.statusCode, JsVal.truthy]
    refine ⟨hrej, ?_⟩
    rw [hrej]
    simp [List.any_append, Event.isScopesUpdate,
      selectScope_events_any cli anvil data Event.isScopesUpdate (fun _ => rfl) (fun _ => rfl)]

/-- A filter keeps nothing when no element satisfies the predicate. -/
theorem filter_eq_nil_of_any (l : List Event) (p : Event → Bool) (h : l.any p = false) :
    l.filter p = [] := by
  rw [List.filter_eq_nil_iff]
  intro a ha hp
  have : l.any p = true := List.any_eq_true.mpr ⟨a, ha, hp⟩
  rw [h] at this
  exact Bool.noConfusion this

/-- Claim C2: in a run of `delete` whose name resolved to `scopeName`, the run ends with the
policy error `This scope cannot be deleted` (reported by `apiError`, then exit 1) without
any call of `scopes.delete` if and only if `scopeName` is one of the six required names; for
every other name `scopes.delete` is called, once, with exactly `scopeName`. -/
theorem delete_policy (cli : Cli) (data : List JsVal) (flags : Flags) (issuer : Issuer)
    (anvil : Anvil) (cfg scopeName : JsVal)
    (hi : cli.issuersPrompt (flags.issuer.or flags.i) = .ok issuer)
    (hc : cli.clientCreate issuer = .ok anvil)
    (hd : anvil.discover = .ok cfg)
    (hs : (scopeCmd.selectScope cli anvil data).result = .ok scopeName) :
    ((scopeCmd.delete cli data flags =
        [.issuersPrompt (flags.issuer.or flags.i), .clientCreate issuer, .discover] ++
          (scopeCmd.selectScope cli anvil data).events ++
          [.consoleLog (JsError.new "This scope cannot be deleted"), .exit 1] ∧
      (scopeCmd.delete cli data flags).any Event.isScopesDelete = false) ↔
      scopeName ∈ scopeCmd.requiredScopes) ∧
    (scopeName ∉ scopeCmd.requiredScopes →
      scopeCmd.delete cli data flags =
        [.issuersPrompt (flags.issuer.or flags.i), .clientCreate issuer, .discover] ++
          (scopeCmd.selectScope cli anvil data).events ++
          [.scopesDelete scopeName anvil.access_token] ++
          (match anvil.delete scopeName anvil.access_token with
            | .error e => apiError e
            | .ok _ => [.done]) ∧
      (scopeCmd.delete cli data flags).filter Event.isScopesDelete =
        [.scopesDelete scopeName anvil.access_token]) := by
  have hsel := selectScope_events_any cli anvil data Event.isScopesDelete
    (fun _ => rfl) (fun _ => rfl)
  have hrun : scopeCmd.delete cli data flags =
      [.issuersPrompt (flags.issuer.or flags.i), .clientCreate issuer, .discover] ++
        (scopeCmd.selectScope cli anvil data).events ++
        (if JsVal.indexOf scopeCmd.requiredScopes scopeName != -1 then
          apiError (JsError.new "This scope cannot be deleted")
        else
          .scopesDelete scopeName anvil.access_token ::
          match anvil.delete scopeName anvil.access_token with
          | .error e => apiError e
          | .ok _ => [.done]) := by
    unfold scopeCmd.delete
    rw [withClient_ok cli flags _ issuer anvil hi hc, deleteChain_eq]
    simp [hd, hs]
  have hacc : scopeName ∉ scopeCmd.requiredScopes →
      scopeCmd.delete cli data flags =
        [.issuersPrompt (flags.issuer.or flags.i), .clientCreate issuer, .discover] ++
          (scopeCmd.selectScope cli anvil data).events ++
          [.scopesDelete scopeName anvil.access_token] ++
          (match anvil.delete scopeName anvil.access_token with
            | .error e => apiError e
            | .ok _ => [.done]) := by
    intro h
    have h1 : (JsVal.indexOf scopeCmd.requiredScopes scopeName != -1) = false := by
      rw [Bool.eq_false_iff]
      exact fun hc => h ((indexOf_requiredScopes _).mp hc)
    rw [hrun, h1]
    simp
  refine ⟨⟨?_, ?_⟩, fun h => ⟨hacc h, ?_⟩⟩
  · rintro ⟨-, hany⟩
    by_contra h
    rw [hacc h] at hany
    simp [Event.isScopesDelete] at hany
  · intro h
    have hrej : scopeCmd.delete cli data flags =
        [.issuersPrompt (flags.issuer.or flags.i), .clientCreate issuer, .discover] ++
          (scopeCmd.selectScope cli anvil data).events ++
          [.consoleLog (JsError.new "This scope cannot be deleted"), .exit 1] := by
      rw [hrun, (indexOf_requiredScopes _).mpr h]
      simp [apiError, JsError.new, JsError.statusCode, JsVal.truthy]
    refine ⟨hrej, ?_⟩
    rw [hrej]
    simp [List.any_append, Event.isScopesDelete, hsel]
  · rw [hacc h]
    have htail : (match anvil.delete scopeName anvil.access_token with
        | .error e => apiError e
        | .ok _ => [Event.done]).filter Event.isScopesDelete = [] := by
      apply filter_eq_nil_of_any
      split
      · exact apiError_any_of_not_report _ _ (fun _ => rfl) (fun _ => rfl) (fun _ => rfl) rfl
      · rfl
    simp [List.filter_append, filter_eq_nil_of_any _ _ hsel, htail, Event.isScopesDelete]

/-- The scenario `delete openid`: rejected, `scopes.delete` never called. -/
theorem delete_policy_witness :
    scopeCmd.delete sampleCli [.str "openid"] {} =
      [.issuersPrompt .undefined, .clientCreate "issuer", .discover,
        .consoleLog (JsError.new "This scope cannot be deleted"), .exit 1] ∧
    (scopeCmd.delete sampleCli [.str "openid"] {}).any Event.isScopesDelete = false :=
  (delete_policy sampleCli [.str "openid"] {} "issuer" sampleAnvil .null (.str "openid")
    rfl rfl rfl rfl).1.mpr (List.Mem.head _)

/-- The scenario `profile` to `profile2`: rejected before any `scopes.update`. -/
theorem update_policy_witness :
    scopeCmd.update sampleCli [.str "profile"] {} =
      [.issuersPrompt .undefined, .clientCreate "issuer", .discover,
        .scopesGet (.str "profile") (.str "token"),
        .prompt (scopeCmd.updateQuestions {} sampleScope),
        .consoleLog (JsError.new "This scope cannot be updated with a new name"),
        .exit 1] ∧
    (scopeCmd.update sampleCli [.str "profile"] {}).any Event.isScopesUpdate = false :=
  (update_policy sampleCli [.str "profile"] {} "issuer" sampleAnvil .null (.str "profile")
    sampleScope rfl rfl rfl rfl rfl).1.mpr
    ⟨List.Mem.tail _ (List.Mem.head _),
      fun h => absurd (JsVal.str.inj (h : JsVal.str "profile2" = JsVal.str "profile"))
        (by decide)⟩

/-- The resource operations of a successful resolution: none, or one `scopes.list`. -/
theorem selectScope_ops (cli : Cli) (anvil : Anvil) (data : List JsVal) (scopeName : JsVal)
    (hs : (scopeCmd.selectScope cli anvil data).result = .ok scopeName) :
    (scopeCmd.selectScope cli anvil data).events.filter Event.isResourceOp =
      if (scopeCmd.arg0 data).truthy then [] else [.scopesList anvil.access_token] := by
  rw [selectScope_eq] at hs ⊢
  split
  · rfl
  · rename_i h0
    simp only [h0] at hs
    rcases hl : anvil.list anvil.access_token with e | scopes
    · simp [hl] at hs
    · simp [Event.isResourceOp]

/-- Claim C3 fails as stated: renaming `profile` to `profile2` is rejected by the policy,
yet the run has called `scopes.get` before the check. -/
theorem update_rename_protected_fetches :
    JsVal.str "profile" ∈ scopeCmd.requiredScopes ∧
    (sampleCli.prompt (scopeCmd.updateQuestions {} sampleScope)).prop "name" =
      .str "profile2" ∧
    scopeCmd.update sampleCli [.str "profile"] {} =
      [.issuersPrompt .undefined, .clientCreate "issuer", .discover,
        .scopesGet (.str "profile") (.str "token"),
        .prompt (scopeCmd.updateQuestions {} sampleScope),
        .consoleLog (JsError.new "This scope cannot be updated with a new name"),
        .exit 1] ∧
    (scopeCmd.update sampleCli [.str "profile"] {}).any Event.isResourceOp = true :=
  ⟨List.Mem.tail _ (List.Mem.head _), rfl, rfl, rfl⟩

/-- Claim C3, as amended: for a required name, `update` with a different new name and
`delete` both end with the policy error and never reach `scopes.update` or `scopes.delete`;
the resource operations of the run are exactly those before the check: one `scopes.list`
when the name is chosen in the menu (none when it is explicit), followed in `update` by
the `scopes.get` of the resolved name. -/
theorem protected_policy_gate (cli : Cli) (data : List JsVal) (flags : Flags)
    (issuer : Issuer) (anvil : Anvil) (cfg scopeName : JsVal)
    (hi : cli.issuersPrompt (flags.issuer.or flags.i) = .ok issuer)
    (hc : cli.clientCreate issuer = .ok anvil)
    (hd : anvil.discover = .ok cfg)
    (hs : (scopeCmd.selectScope cli anvil data).result = .ok scopeName) :
    (∀ scope, anvil.get scopeName anvil.access_token = .ok scope →
      scope.name ∈ scopeCmd.requiredScopes →
      (cli.prompt (scopeCmd.updateQuestions flags scope)).prop "name" ≠ scope.name →
      scopeCmd.update cli data flags =
        [.issuersPrompt (flags.issuer.or flags.i), .clientCreate issuer, .discover] ++
          (scopeCmd.selectScope cli anvil data).events ++
          [.scopesGet scopeName anvil.access_token,
            .prompt (scopeCmd.updateQuestions flags scope),
            .consoleLog (JsError.new "This scope cannot be updated with a new name"),
            .exit 1] ∧
      (scopeCmd.update cli data flags).filter Event.isResourceOp =
        (if (scopeCmd.arg0 data).truthy then [] else [.scopesList anvil.access_token]) ++
          [.scopesGet scopeName anvil.access_token]) ∧
    (scopeName ∈ scopeCmd.requiredScopes →
      scopeCmd.delete cli data flags =
        [.issuersPrompt (flags.issuer.or flags.i), .clientCreate issuer, .discover] ++
          (scopeCmd.selectScope cli anvil data).events ++
          [.consoleLog (JsError.new "This scope cannot be deleted"), .exit 1] ∧
      (scopeCmd.delete cli data flags).filter Event.isResourceOp =
        (if (scopeCmd.arg0 data).truthy then [] else [.scopesList anvil.access_token])) := by
  have hops := selectScope_ops cli anvil data scopeName hs
  constructor
  · intro scope hg hn hne
    have hrej : scopeCmd.update cli data flags =
        [.issuersPrompt (flags.issuer.or flags.i), .clientCreate issuer, .discover] ++
          (scopeCmd.selectScope cli anvil data).events ++
          [.scopesGet scopeName anvil.access_token,
            .prompt (scopeCmd.updateQuestions flags scope),
            .consoleLog (JsError.new "This scope cannot be updated with a new name"),
            .exit 1] := by
      unfold scopeCmd.update
      rw [withClient_ok cli flags _ issuer anvil hi hc, updateChain_eq]
      simp [hd, hs, hg, promptUpdate_reject cli flags scope ⟨hn, hne⟩, apiError, JsError.new,
        JsError.statusCode,
        JsVal.truthy]
    refine ⟨hrej, ?_⟩
    rw [hrej]
    simp [List.filter_append, hops, Event.isResourceOp]
  · intro hn
    have hrej : scopeCmd.delete cli data flags =
        [.issuersPrompt (flags.issuer.or flags.i), .clientCreate issuer, .discover] ++
          (scopeCmd.selectScope cli anvil data).events ++
          [.consoleLog (JsError.new "This scope cannot be deleted"), .exit 1] := by
      unfold scopeCmd.delete
      rw [withClient_ok cli flags _ issuer anvil hi hc, deleteChain_eq]
      simp [hd, hs, (indexOf_requiredScopes _).mpr hn, apiError, JsError.new,
        JsError.statusCode, JsVal.truthy]
    refine ⟨hrej, ?_⟩
    rw [hrej]
    simp [List.filter_append, hops, Event.isResourceOp]

/-- The required scope `profile`, named explicitly: one `scopes.get` in `update`, nothing in
`delete`. -/
theorem protected_policy_gate_witness :
    (scopeCmd.update sampleCli [.str "profile"] {}).filter Event.isResourceOp =
      [.scopesGet (.str "profile") (.str "token")] ∧
    (scopeCmd.delete sampleCli [.str "profile"] {}).filter Event.isResourceOp = [] :=
  ⟨((protected_policy_gate sampleCli [.str "profile"] {} "issuer" sampleAnvil .null
      (.str "profile") rfl rfl rfl rfl).1 sampleScope rfl
      (List.Mem.tail _ (List.Mem.head _))
      (fun h => absurd (JsVal.str.inj (h : JsVal.str "profile2" = JsVal.str "profile"))
        (by decide))).2,
   ((protected_policy_gate sampleCli [.str "profile"] {} "issuer" sampleAnvil .null
      (.str "profile") rfl rfl rfl rfl).2 (List.Mem.tail _ (List.Mem.head _))).2⟩

/-- Claim C5: with a non-empty explicit positional name `x`, whatever the client answers,
the resolution promise resolves to exactly `x` with no event, and no run of `info`,
`update` or `delete` calls `scopes.list` or shows a selection prompt. -/
theorem explicit_name_resolves (cli : Cli) (anvil : Anvil) (x : String) (rest : List JsVal)
    (flags : Flags) (hx : x ≠ "") :
    scopeCmd.selectScope cli anvil (.str x :: rest) = ⟨[], .ok (.str x)⟩ ∧
    (scopeCmd.info cli (.str x :: rest) flags).any
      (fun e => e.isScopesList || e.isSelectPrompt) = false ∧
    (scopeCmd.update cli (.str x :: rest) flags).any
      (fun e => e.isScopesList || e.isSelectPrompt) = false ∧
    (scopeCmd.delete cli (.str x :: rest) flags).any
      (fun e => e.isScopesList || e.isSelectPrompt) = false := by
  have hsel := fun a => selectScope_explicit cli a x rest hx
  have herr : ∀ e, (apiError e).any (fun e => e.isScopesList || e.isSelectPrompt) = false :=
    fun e => apiError_any_of_not_report e _ (fun _ => rfl) (fun _ => rfl) (fun _ => rfl) rfl
  have hdisp : ∀ d, (displayScope cli d).any
      (fun e => e.isScopesList || e.isSelectPrompt) = false :=
    fun d => displayScope_any_of_not_log cli d _ (fun _ => rfl)
  refine ⟨hsel anvil, ?_, ?_, ?_⟩
  · refine withClient_any _ _ _ _ (fun _ => rfl) (fun _ => rfl) (fun _ => rfl) (fun _ => rfl) ?_
    intro a
    simp only [infoChain_eq, hsel, List.nil_append]
    rcases a.discover with e | cfg
    · simpa [Event.isScopesList, Event.isSelectPrompt] using herr e
    · rcases a.get (.str x) a.access_token with e | sc
      · simpa [Event.isScopesList, Event.isSelectPrompt] using herr e
      · simpa [Event.isScopesList, Event.isSelectPrompt] using hdisp sc
  · refine withClient_any _ _ _ _ (fun _ => rfl) (fun _ => rfl) (fun _ => rfl) (fun _ => rfl) ?_
    intro a
    simp only [updateChain_eq, hsel, List.nil_append]
    rcases a.discover with e | cfg
    · simpa [Event.isScopesList, Event.isSelectPrompt] using herr e
    · rcases a.get (.str x) a.access_token with e | sc
      · simpa [Event.isScopesList, Event.isSelectPrompt] using herr e
      · rcases hp : (scopeCmd.promptUpdate cli flags sc).result with e | d
        · simpa [Event.isScopesList, Event.isSelectPrompt, scopeCmd.updateQuestions, hp]
            using herr e
        · rcases hu : a.update d.1.name d.2 a.access_token with e | r
          · simpa [Event.isScopesList, Event.isSelectPrompt, scopeCmd.updateQuestions, hp, hu]
              using herr e
          · simpa [Event.isScopesList, Event.isSelectPrompt, scopeCmd.updateQuestions, hp, hu]
              using hdisp r
  · refine withClient_any _ _ _ _ (fun _ => rfl) (fun _ => rfl) (fun _ => rfl) (fun _ => rfl) ?_
    intro a
    simp only [deleteChain_eq, hsel, List.nil_append]
    rcases a.discover with e | cfg
    · simpa [Event.isScopesList, Event.isSelectPrompt] using herr e
    · by_cases hr : (JsVal.indexOf scopeCmd.requiredScopes (.str x) != -1) = true
      · simpa [Event.isScopesList, Event.isSelectPrompt, hr] using herr _
      · rcases a.delete (.str x) a.access_token with e | r
        · simpa [Event.isScopesList, Event.isSelectPrompt, hr] using herr e
        · simp [Event.isScopesList, Event.isSelectPrompt, hr]

/-- The explicit name `profile`. -/
theorem explicit_name_resolves_witness :
    scopeCmd.selectScope sampleCli sampleAnvil [.str "profile"] = ⟨[], .ok (.str "profile")⟩ ∧
    (scopeCmd.info sampleCli [.str "profile"] {}).any
      (fun e => e.isScopesList || e.isSelectPrompt) = false ∧
    (scopeCmd.update sampleCli [.str "profile"] {}).any
      (fun e => e.isScopesList || e.isSelectPrompt) = false ∧
    (scopeCmd.delete sampleCli [.str "profile"] {}).any
      (fun e => e.isScopesList || e.isSelectPrompt) = false :=
  explicit_name_resolves sampleCli sampleAnvil "profile" [] {} (by decide)

/-- Claim C7: in `info` and `update` without an explicit positional name, when
`scopes.list` returns `scopes`, the menu is a single `list` question whose choices are the
names of `scopes` in the same order, the resolved name is the answer `scopeName` of that
prompt, and the only `scopes.get` of the run is made for exactly that name, after the list
and the prompt. -/
theorem interactive_selection (cli : Cli) (data : List JsVal) (flags : Flags) (issuer : Issuer)
    (anvil : Anvil) (cfg : JsVal) (scopes : List Scope)
    (hi : cli.issuersPrompt (flags.issuer.or flags.i) = .ok issuer)
    (hc : cli.clientCreate issuer = .ok anvil)
    (hd : anvil.discover = .ok cfg)
    (h0 : (scopeCmd.arg0 data).truthy = false)
    (hl : anvil.list anvil.access_token = .ok scopes) :
    (scopeCmd.selectQuestions scopes).map (fun q => (q.type, q.choices.map Choice.name)) =
      [("list", scopes.map Scope.name)] ∧
    (scopeCmd.selectQuestions scopes).map (fun q => q.choices.map Choice.value) =
      [scopes.map Scope.name] ∧
    scopeCmd.selectScope cli anvil data =
      ⟨[.scopesList anvil.access_token, .prompt (scopeCmd.selectQuestions scopes)],
        .ok ((cli.prompt (scopeCmd.selectQuestions scopes)).prop "scopeName")⟩ ∧
    (scopeCmd.info cli data flags).filter
        (fun e => e.isScopesList || e.isSelectPrompt || e.isScopesGet) =
      [.scopesList anvil.access_token, .prompt (scopeCmd.selectQuestions scopes),
        .scopesGet ((cli.prompt (scopeCmd.selectQuestions scopes)).prop "scopeName")
          anvil.access_token] ∧
    (scopeCmd.update cli data flags).filter
        (fun e => e.isScopesList || e.isSelectPrompt || e.isScopesGet) =
      [.scopesList anvil.access_token, .prompt (scopeCmd.selectQuestions scopes),
        .scopesGet ((cli.prompt (scopeCmd.selectQuestions scopes)).prop "scopeName")
          anvil.access_token] := by
  have hsel : scopeCmd.selectScope cli anvil data =
      ⟨[.scopesList anvil.access_token, .prompt (scopeCmd.selectQuestions scopes)],
        .ok ((cli.prompt (scopeCmd.selectQuestions scopes)).prop "scopeName")⟩ := by
    rw [selectScope_eq]
    simp [h0, hl]
  have herr : ∀ e, (apiError e).filter
      (fun e => e.isScopesList || e.isSelectPrompt || e.isScopesGet) = [] :=
    fun e => filter_eq_nil_of_any _ _
      (apiError_any_of_not_report e _ (fun _ => rfl) (fun _ => rfl) (fun _ => rfl) rfl)
  have hdisp : ∀ d, (displayScope cli d).filter
      (fun e => e.isScopesList || e.isSelectPrompt || e.isScopesGet) = [] :=
    fun d => filter_eq_nil_of_any _ _ (displayScope_any_of_not_log cli d _ (fun _ => rfl))
  have hq : (scopeCmd.selectQuestions scopes).any (fun q => q.type == "list") = true := by
    simp [scopeCmd.selectQuestions]
  refine ⟨?_, ?_, hsel, ?_, ?_⟩
  · simp [scopeCmd.selectQuestions, Function.comp_def]
  · simp [scopeCmd.selectQuestions, Function.comp_def]
  · unfold scopeCmd.info
    rw [withClient_ok cli flags _ issuer anvil hi hc]
    simp only [infoChain_eq, hsel, hd]
    rcases hg : anvil.get ((cli.prompt (scopeCmd.selectQuestions scopes)).prop "scopeName")
      anvil.access_token with e | sc
    · simp only [hg, List.filter_cons, List.filter_append, List.cons_append,
        List.nil_append, herr, List.filter_nil]
      simp [Event.isScopesList, Event.isSelectPrompt, Event.isScopesGet, hq]
    · simp only [hg, List.filter_cons, List.filter_append, List.cons_append,
        List.nil_append, hdisp, List.filter_nil]
      simp [Event.isScopesList, Event.isSelectPrompt, Event.isScopesGet, hq]
  · unfold scopeCmd.update
    rw [withClient_ok cli flags _ issuer anvil hi hc]
    simp only [updateChain_eq, hsel, hd]
    rcases hg : anvil.get ((cli.prompt (scopeCmd.selectQuestions scopes)).prop "scopeName")
      anvil.access_token with e | sc
    · simp only [hg, List.filter_cons, List.filter_append, List.cons_append,
        List.nil_append, herr, List.filter_nil]
      simp [Event.isScopesList, Event.isSelectPrompt, Event.isScopesGet, hq]
    · rcases hp : (scopeCmd.promptUpdate cli flags sc).result with e | d
      · simp only [hg, hp, List.filter_cons, List.filter_append, List.cons_append,
          List.nil_append, herr, List.filter_nil]
        simp [Event.isScopesList, Event.isSelectPrompt, Event.isScopesGet, hq,
          scopeCmd.updateQuestions]
      · rcases hu : anvil.update d.1.name d.2 anvil.access_token with e | r
        · simp only [hg, hp, hu, List.filter_cons, List.filter_append, List.cons_append,
            List.nil_append, herr, List.filter_nil]
          simp [Event.isScopesList, Event.isSelectPrompt, Event.isScopesGet, hq,
            scopeCmd.updateQuestions]
        · simp only [hg, hp, hu, List.filter_cons, List.filter_append, List.cons_append,
            List.nil_append, hdisp, List.filter_nil]
          simp [Event.isScopesList, Event.isSelectPrompt, Event.isScopesGet, hq,
            scopeCmd.updateQuestions]

/-- The scenario: the lister returns `a`, `b`, `c`, the user picks `b`, the fetch is for `b`. -/
theorem interactive_selection_witness :
    (scopeCmd.selectQuestions
        [{ sampleScope with name := .str "a" }, { sampleScope with name := .str "b" },
          { sampleScope with name := .str "c" }]).map
      (fun q => q.choices.map Choice.value) = [[.str "a", .str "b", .str "c"]] ∧
    (scopeCmd.selectScope sampleCli sampleAnvil []).result = .ok (.str "b") ∧
    (scopeCmd.info sampleCli [] {}).filter Event.isScopesGet =
      [.scopesGet (.str "b") (.str "token")] ∧
    (scopeCmd.update sampleCli [] {}).filter Event.isScopesGet =
      [.scopesGet (.str "b") (.str "token")] :=
  have h := interactive_selection sampleCli [] {} "issuer" sampleAnvil .null
    [{ sampleScope with name := .str "a" }, { sampleScope with name := .str "b" },
      { sampleScope with name := .str "c" }] rfl rfl rfl rfl rfl
  ⟨h.2.1, congrArg Run.result h.2.2.1, rfl, rfl⟩

/-- Every handler is the prologue followed by its chain. -/
theorem handler_eq (t : ScopeTask) (cli : Cli) (data : List JsVal) (flags : Flags) :
    t.handler cli data flags = scopeCmd.withClient cli flags (t.chain cli data flags) := by
  cases t <;> rfl

/-- Every chain starts with `discover`, and only `apiError` follows a failed discovery. -/
theorem chain_shape (t : ScopeTask) (cli : Cli) (data : List JsVal) (flags : Flags)
    (anvil : Anvil) :
    ∃ rest, t.chain cli data flags anvil = .discover :: rest ∧
      ∀ e, anvil.discover = .error e → rest = apiError e := by
  cases t
  case register =>
    refine ⟨_, registerChain_eq cli flags anvil, ?_⟩
    intro e he
    simp [he]
  case list =>
    refine ⟨_, listChain_eq cli anvil, ?_⟩
    intro e he
    simp [he]
  case info =>
    refine ⟨_, infoChain_eq cli data anvil, ?_⟩
    intro e he
    simp [he]
  case update =>
    refine ⟨_, updateChain_eq cli data flags anvil, ?_⟩
    intro e he
    simp [he]
  case delete =>
    refine ⟨_, deleteChain_eq cli data anvil, ?_⟩
    intro e he
    simp [he]

/-- After a `discover` event nothing is forbidden. -/
theorem guarded_true (l : List Event) : guarded true l = true := by
  induction l with
  | nil => rfl
  | cons e es ih => simp [guarded, ih]

/-- What the scan `guarded` establishes for every position of a run. -/
theorem guarded_sound (l : List Event) (seen : Bool) (h : guarded seen l = true)
    (pre : List Event) (op : Event) (post : List Event) (hl : l = pre ++ op :: post)
    (hop : op.isResourceOp = true) : seen = true ∨ Event.discover ∈ pre := by
  induction pre generalizing l seen with
  | nil =>
    subst hl
    simp only [List.nil_append, guarded, Bool.and_eq_true, Bool.or_eq_true, hop, Bool.not_true] at h
    rcases h.1 with h1 | h1
    · exact Or.inl h1
    · exact Bool.noConfusion h1
  | cons a pre ih =>
    subst hl
    simp only [List.cons_append, guarded, Bool.and_eq_true, Bool.or_eq_true] at h
    rcases ih _ _ h.2 rfl with h1 | h1
    · rcases Bool.or_eq_true _ _ ▸ h1 with h2 | h2
      · exact Or.inl h2
      · right
        cases a <;> first | exact Bool.noConfusion h2 | exact List.mem_cons_self _ _
    · exact Or.inr (List.mem_cons_of_mem _ h1)

/-- Claim C9: in every run of each of the five tasks, a remote resource operation occurs
only after the `discover` event of the same run and only if that discovery succeeded; when
discovery fails, the run is the prologue, `discover`, then `apiError` on the failure, and
holds no resource operation. -/
theorem resource_ops_after_discovery (t : ScopeTask) (cli : Cli) (data : List JsVal)
    (flags : Flags) :
    (∀ pre op post, t.handler cli data flags = pre ++ op :: post → op.isResourceOp = true →
      Event.discover ∈ pre ∧
      ∃ issuer anvil cfg, cli.issuersPrompt (flags.issuer.or flags.i) = .ok issuer ∧
        cli.clientCreate issuer = .ok anvil ∧ anvil.discover = .ok cfg) ∧
    (∀ issuer anvil e, cli.issuersPrompt (flags.issuer.or flags.i) = .ok issuer →
      cli.clientCreate issuer = .ok anvil → anvil.discover = .error e →
      t.handler cli data flags =
        [.issuersPrompt (flags.issuer.or flags.i), .clientCreate issuer, .discover] ++
          apiError e ∧
      (t.handler cli data flags).any Event.isResourceOp = false) := by
  have hfail : ∀ issuer anvil e, cli.issuersPrompt (flags.issuer.or flags.i) = .ok issuer →
      cli.clientCreate issuer = .ok anvil → anvil.discover = .error e →
      t.handler cli data flags =
        [.issuersPrompt (flags.issuer.or flags.i), .clientCreate issuer, .discover] ++
          apiError e := by
    intro issuer anvil e hi hc hd
    obtain ⟨rest, hrest, herr⟩ := chain_shape t cli data flags anvil
    rw [handler_eq, withClient_ok cli flags _ issuer anvil hi hc, hrest, herr e hd]
    rfl
  have hnone : ∀ e, (apiError e).any Event.isResourceOp = false :=
    fun e => apiError_any_of_not_report e _ (fun _ => rfl) (fun _ => rfl) (fun _ => rfl) rfl
  constructor
  · intro pre op post hrun hop
    have hmem : (t.handler cli data flags).any Event.isResourceOp = true :=
      List.any_eq_true.mpr ⟨op, by rw [hrun]; simp, hop⟩
    rw [handler_eq] at hrun hmem
    rcases withClient_cases cli flags (t.chain cli data flags) with ⟨e, _, h⟩ |
      ⟨issuer, e, _, _, h⟩ | ⟨issuer, anvil, hi, hc, h⟩
    · rw [h] at hmem
      simp [Event.isResourceOp] at hmem
    · rw [h] at hmem
      simp [Event.isResourceOp] at hmem
    · obtain ⟨rest, hrest, herr⟩ := chain_shape t cli data flags anvil
      rw [h, hrest] at hrun hmem
      constructor
      · have hg : guarded false
            ([.issuersPrompt (flags.issuer.or flags.i), .clientCreate issuer] ++
              Event.discover :: rest) = true := by
          simp [guarded, Event.isResourceOp, Event.isDiscover, guarded_true]
        rcases guarded_sound _ _ hg pre op post hrun hop with h1 | h1
        · exact Bool.noConfusion h1
        · exact h1
      · rcases hd : anvil.discover with e | cfg
        · rw [herr e hd] at hmem
          simp [Event.isResourceOp, hnone] at hmem
        · exact ⟨issuer, anvil, cfg, hi, hc, hd⟩
  · intro issuer anvil e hi hc hd
    refine ⟨hfail issuer anvil e hi hc hd, ?_⟩
    rw [hfail issuer anvil e hi hc hd]
    simp [Event.isResourceOp, hnone]

/-- A refused discovery in `delete`: the login message, exit 1, no resource operation. -/
theorem resource_ops_after_discovery_witness :
    ScopeTask.delete.handler offlineCli [.str "b"] {} =
      [.issuersPrompt .undefined, .clientCreate "issuer", .discover,
        .logError (.text "Please login to the issuer."), .exit 1] ∧
    (ScopeTask.delete.handler offlineCli [.str "b"] {}).any Event.isResourceOp = false :=
  (resource_ops_after_discovery .delete offlineCli [.str "b"] {}).2 "issuer"
    { sampleAnvil with
      discover := .error (.object { statusCode := .num 403, message := "Forbidden" }) }
    (.object { statusCode := .num 403, message := "Forbidden" }) rfl rfl rfl
